import Mathlib

/-
Shallow embedding of `src/webhook_relay_cloud.py` (Webhook 中繼站 v4.5).

Conventions of the embedding:
* The process-wide local clock (`get_local_time()`) is passed explicitly as a
  `LocalNow` value: `today` is `now.strftime("%Y-%m-%d")`, `time` is
  `now.strftime("%H:%M")` and `stamp` is `get_local_time_str()`.
* Python dictionaries with optional keys are modelled with `Option` fields;
  `dict.get(k, d)` becomes `Option.getD`, and Python truthiness of a string
  value (`if s.get('date')`) is `getD "" ≠ ""`.
* Python string comparison (`<=` on `"HH:MM"` labels) is the lexicographic
  order on `String` provided by Mathlib, which agrees with Python's
  code-point comparison.
* Network sends (`MessageSender.*` / `_send_to_webhook`'s outcome) are an
  oracle `send : WebhookItem → Bool`; a raised exception inside
  `_send_to_webhook` is the same as a `False` outcome (both bump `failed`).
-/

/-- Local wall-clock instant as the Python code observes it via
`get_local_time()` / `get_local_time_str()`. -/
structure LocalNow where
  today : String
  time : String
  stamp : String
deriving DecidableEq

/-- One entry of `WebhookItem.schedules`: a Python dict with keys
`date`, `start_time`, `end_time`, each possibly absent. -/
structure ScheduleEntry where
  date : Option String
  start_time : Option String
  end_time : Option String
deriving DecidableEq

/-- `WebhookItem` (webhook_relay_cloud.py, class WebhookItem).  The Python
`stats` dict is flattened into `sent` / `failed`. -/
structure WebhookItem where
  id : String
  url : String
  name : String
  webhook_type : String
  enabled : Bool
  is_fixed : Bool
  sent : Nat
  failed : Nat
  created_at : String
  schedule_mode : String
  schedules : List ScheduleEntry
deriving DecidableEq

/-- Placeholder used only as the default of `List.getD` at indices that are
proved in range; it never influences any result. -/
def dummyWebhook : WebhookItem :=
  { id := "", url := "", name := "", webhook_type := "discord",
    enabled := true, is_fixed := false, sent := 0, failed := 0,
    created_at := "", schedule_mode := "off", schedules := [] }

/-- Lexicographic code-point comparison on character lists; this is exactly
Python's `<=` on strings, used by the source on `"HH:MM"` labels. -/
def chLe : List Char → List Char → Bool
  | [], _ => true
  | _ :: _, [] => false
  | a :: as, b :: bs => if a < b then true else if b < a then false else chLe as bs

/-- Python string `<=` (lexicographic by code point). -/
def strLe (a b : String) : Bool := chLe a.data b.data

/-- Body of the `for schedule in self.schedules` loop of
`WebhookItem.is_in_schedule`: does this entry cover `now`? -/
def coveredBy (now : LocalNow) (s : ScheduleEntry) : Bool :=
  if s.date = some now.today then
    let st := s.start_time.getD "00:00"
    let en := s.end_time.getD "23:59"
    if strLe st en then strLe st now.time && strLe now.time en
    else strLe st now.time || strLe now.time en
  else false

/-- `WebhookItem.is_in_schedule` (lines 410-443). -/
def WebhookItem.is_in_schedule (wh : WebhookItem) (now : LocalNow) : Bool :=
  if wh.schedule_mode = "off" then true
  else if wh.schedules.isEmpty then false
  else wh.schedules.any (coveredBy now)

/-- Webhook used in concrete witnesses: one wraparound window on 2025-02-23. -/
def sampleNightWebhook : WebhookItem :=
  { dummyWebhook with
    schedule_mode := "date_range",
    schedules := [⟨some "2025-02-23", some "22:00", some "02:00"⟩] }

/-- Instant used in concrete witnesses: 23:30 on 2025-02-23. -/
def sampleNight : LocalNow := ⟨"2025-02-23", "23:30", "2025-02-23 23:30:00"⟩

/-- Is `needle` a leading segment of `hay`?  Helper for Python's substring
test `keyword in content`. -/
def chLead : List Char → List Char → Bool
  | [], _ => true
  | _ :: _, [] => false
  | a :: as, b :: bs => (a = b) && chLead as bs

/-- Python's `needle in hay` substring containment, on code points. -/
def chSub : List Char → List Char → Bool
  | needle, [] => needle.isEmpty
  | needle, c :: rest => chLead needle (c :: rest) || chSub needle rest

/-- The fixed noise markers of `BossGroup.relay_message` (line 847). -/
def filter_keywords : List String :=
  ["偵測到HP血條", "BOSS存在", "⏰ 時間:", "🩸"]

/-- The suppression test at the top of `relay_message`:
`if not image_data and content:` and a keyword matches. -/
def isNoiseMessage (content : String) (image_data : Bool) : Bool :=
  !image_data && !(content == "") &&
    filter_keywords.any (fun k => chSub k.data content.data)

/-- One entry of a group's bounded history deque. -/
structure HistEntry where
  time : String
  content : String
  status : String
  source : String
  has_image : Bool
  mode : String
deriving DecidableEq

/-- One entry of the per-dispatch detailed result list. -/
structure ResultEntry where
  name : String
  wtype : String
  success : Bool
  is_fixed : Bool
  skipped : Bool
deriving DecidableEq

/-- Mutable state of a `BossGroup` (lock and save callback are not data).
The Python `stats` dict is flattened into the three counters. -/
structure GroupState where
  group_id : String
  display_name : String
  webhooks : List WebhookItem
  send_mode : String
  current_index : Nat
  received : Nat
  total_sent : Nat
  total_failed : Nat
  history : List HistEntry
deriving DecidableEq

/-- `deque(maxlen=50).appendleft`: prepend and keep the newest 50. -/
def histPush (e : HistEntry) (h : List HistEntry) : List HistEntry :=
  (e :: h).take 50

/-- Python's `s[-n:]`: the last `n` characters (whole string when shorter). -/
def lastChars (n : Nat) (s : String) : String :=
  String.mk (s.data.drop (s.data.length - n))

/-- Counter effect of `_send_to_webhook` on the attempted webhook: a `True`
outcome bumps `sent`, a `False` outcome or an exception bumps `failed`. -/
def bump (send : WebhookItem → Bool) (wh : WebhookItem) : WebhookItem :=
  if send wh then { wh with sent := wh.sent + 1 } else { wh with failed := wh.failed + 1 }

/-- Apply `bump` to the first list entry equal to `sel` (the selected
round-robin webhook; distinct Python objects are distinct entries here). -/
def bumpFirst (send : WebhookItem → Bool) (sel : WebhookItem) :
    List WebhookItem → List WebhookItem
  | [] => []
  | wh :: rest =>
    if wh = sel then bump send wh :: rest else wh :: bumpFirst send sel rest

/-- `BossGroup.get_enabled_webhooks` (lines 788-793). -/
def BossGroup.get_enabled_webhooks (whs : List WebhookItem) (exclude_fixed : Bool) :
    List WebhookItem :=
  let ws := whs.filter (fun wh => wh.enabled)
  if exclude_fixed then ws.filter (fun wh => !wh.is_fixed) else ws

/-- `BossGroup.get_fixed_webhooks` (lines 795-797). -/
def BossGroup.get_fixed_webhooks (whs : List WebhookItem) : List WebhookItem :=
  whs.filter (fun wh => wh.is_fixed && wh.enabled)

/-- The `for _ in range(total)` loop of `get_next_webhook_round_robin`,
with the remaining iteration count as fuel.  Each iteration normalizes the
cursor (`self.current_index % total`), reads the candidate, advances the
cursor, and either selects the candidate (if covered) or records it as
skipped and continues. -/
def rrGo (now : LocalNow) (enabled : List WebhookItem) :
    Nat → Nat → List WebhookItem → (Option WebhookItem × List WebhookItem) × Nat
  | 0, idx, skipped => ((none, skipped), idx)
  | fuel + 1, idx, skipped =>
    let total := enabled.length
    let i := idx % total
    let candidate := enabled.getD i dummyWebhook
    let idx2 := (i + 1) % total
    if candidate.is_in_schedule now then ((some candidate, skipped), idx2)
    else rrGo now enabled fuel idx2 (skipped ++ [candidate])

/-- `BossGroup.get_next_webhook_round_robin` (lines 799-831).  Returns the
selected webhook (if any), the skipped webhooks, and the new cursor. -/
def BossGroup.get_next_webhook_round_robin (now : LocalNow)
    (whs : List WebhookItem) (idx : Nat) :
    (Option WebhookItem × List WebhookItem) × Nat :=
  let enabled := BossGroup.get_enabled_webhooks whs true
  if enabled.isEmpty then ((none, []), idx)
  else rrGo now enabled enabled.length idx []

/-- Mode display name used in history entries and the status message. -/
def modeName (mode : String) : String :=
  if mode == "sync" then "同步" else "輪詢"

/-- Per-result mark in the one-line status string. -/
def statusMark (r : ResultEntry) : String :=
  if r.skipped then "[跳過]" else if r.success then "[OK]" else "[失敗]"

/-- `{'discord': 'DC', 'feishu': '飛書', 'wecom': '微信'}.get(t, '?')`. -/
def typeLabel (t : String) : String :=
  if t == "discord" then "DC"
  else if t == "feishu" then "飛書"
  else if t == "wecom" then "微信"
  else "?"

/-- Result of one `relay_message` call: the returned triple plus the group
state after the call. -/
structure RelayResult where
  ok : Bool
  msg : String
  results : List ResultEntry
  state : GroupState
deriving DecidableEq

/-- Tail of `relay_message` (lines 945-976): counts, counters, the one-line
status string, the history entry, and the returned triple. -/
def finishRelay (now : LocalNow) (g : GroupState) (newWebhooks : List WebhookItem)
    (results : List ResultEntry) (content : String) (image_data : Bool)
    (source_ip : String) (idx2 : Nat) : RelayResult :=
  let success_count := results.countP (fun r => r.success)
  let fail_count := results.countP (fun r => !r.success && !r.skipped)
  let skipped_count := results.countP (fun r => r.skipped)
  let status_parts := results.map (fun r => statusMark r ++ typeLabel r.wtype ++ r.name.take 8)
  let message_parts := ["成功: " ++ toString success_count]
      ++ (if fail_count > 0 then ["失敗: " ++ toString fail_count] else [])
      ++ (if skipped_count > 0 then ["排程外: " ++ toString skipped_count] else [])
  let entry : HistEntry :=
    { time := now.stamp,
      content := if content.length > 50 then content.take 50 ++ "..." else content,
      status := String.intercalate " | " status_parts,
      source := lastChars 15 source_ip,
      has_image := image_data,
      mode := modeName g.send_mode }
  { ok := decide (success_count > 0),
    msg := "[" ++ modeName g.send_mode ++ "] " ++ String.intercalate ", " message_parts,
    results := results,
    state :=
      { g with
        webhooks := newWebhooks,
        current_index := idx2,
        total_sent := g.total_sent + success_count,
        total_failed := g.total_failed + fail_count,
        history := histPush entry g.history } }

/-- `BossGroup.relay_message` (lines 835-976).  `send` is the outcome oracle
for `_send_to_webhook`; `image_data` records whether the message carries
image bytes.  The 飛書 image pre-upload only feeds the sender payload and is
absorbed by the oracle. -/
def BossGroup.relay_message (send : WebhookItem → Bool) (now : LocalNow)
    (g : GroupState) (content : String) (image_data : Bool) (source_ip : String) :
    RelayResult :=
  if isNoiseMessage content image_data then
    { ok := true, msg := "已過濾", results := [],
      state :=
        { g with
          history := histPush
            { time := now.stamp, content := content.take 50,
              status := "已過濾（純文字）", source := lastChars 15 source_ip,
              has_image := false, mode := "過濾" } g.history } }
  else
    let g1 := { g with received := g.received + 1 }
    let fixed := BossGroup.get_fixed_webhooks g1.webhooks
    let fixedResults := fixed.map (fun wh =>
      if wh.is_in_schedule now then
        { name := wh.name, wtype := wh.webhook_type, success := send wh,
          is_fixed := true, skipped := false }
      else
        { name := wh.name, wtype := wh.webhook_type, success := false,
          is_fixed := true, skipped := true })
    let afterFixed := g1.webhooks.map (fun wh =>
      if wh.is_fixed && wh.enabled && wh.is_in_schedule now then bump send wh else wh)
    if g1.send_mode == "sync" then
      let enabledNF := BossGroup.get_enabled_webhooks g1.webhooks true
      if enabledNF.isEmpty && fixed.isEmpty then
        { ok := false, msg := "無啟用的 Webhook", results := [],
          state :=
            { g1 with
              history := histPush
                { time := now.stamp, content := content.take 50,
                  status := "無啟用的 Webhook", source := lastChars 15 source_ip,
                  has_image := image_data, mode := "同步" } g1.history } }
      else
        let syncResults := enabledNF.map (fun wh =>
          if wh.is_in_schedule now then
            { name := wh.name, wtype := wh.webhook_type, success := send wh,
              is_fixed := false, skipped := false }
          else
            { name := wh.name, wtype := wh.webhook_type, success := false,
              is_fixed := false, skipped := true })
        let newWebhooks := g1.webhooks.map (fun wh =>
          if wh.enabled && wh.is_in_schedule now then bump send wh else wh)
        finishRelay now g1 newWebhooks (fixedResults ++ syncResults)
          content image_data source_ip g1.current_index
    else
      let r := BossGroup.get_next_webhook_round_robin now g1.webhooks g1.current_index
      let skippedResults := r.1.2.map (fun wh =>
        { name := wh.name, wtype := wh.webhook_type, success := false,
          is_fixed := false, skipped := true })
      let results1 := fixedResults ++ skippedResults
      match r.1.1 with
      | none =>
        if fixed.isEmpty then
          let skip_msg := if r.1.2.isEmpty then "無啟用的 Webhook" else "所有 Webhook 都不在排程內"
          { ok := false, msg := skip_msg, results := results1,
            state :=
              { g1 with
                webhooks := afterFixed,
                current_index := r.2,
                history := histPush
                  { time := now.stamp, content := content.take 50,
                    status := skip_msg, source := lastChars 15 source_ip,
                    has_image := image_data, mode := "輪詢" } g1.history } }
        else
          finishRelay now g1 afterFixed results1 content image_data source_ip r.2
      | some w =>
        let selResult : ResultEntry :=
          { name := w.name, wtype := w.webhook_type, success := send w,
            is_fixed := false, skipped := false }
        finishRelay now g1 (bumpFirst send w afterFixed) (results1 ++ [selResult])
          content image_data source_ip r.2

/-- A saved/loaded webhook dict.  `WebhookItem.to_save_dict` emits all of the
non-legacy keys; `WebhookItem.from_dict` reads any of them with defaults, so
every field is optional here.  `stats` is the `{sent, failed}` pair. -/
structure WebhookData where
  id : Option String
  name : Option String
  url : Option String
  wtype : Option String
  enabled : Option Bool
  is_fixed : Option Bool
  schedule_mode : Option String
  schedules : Option (List ScheduleEntry)
  schedule_enabled : Option Bool
  schedule_start : Option String
  schedule_end : Option String
  stats : Option (Nat × Nat)
  created_at : Option String
deriving DecidableEq

/-- Environment inputs of `WebhookItem.from_dict` / `WebhookItem.__init__`:
the fresh id (`hashlib.md5(...)[:8]`), the generated default name per
webhook type, today's date for the legacy upgrade, and the default
`created_at` stamp. -/
structure Gen where
  freshId : String
  freshName : String → String
  today : String
  createdAt : String

/-- Python truthiness of an optional string (absent and `""` are falsy). -/
def truthyStr (o : Option String) : Bool := !(o.getD "" == "")

/-- `WebhookItem.to_save_dict` (lines 505-518). -/
def WebhookItem.to_save_dict (wh : WebhookItem) : WebhookData :=
  { id := some wh.id, name := some wh.name, url := some wh.url,
    wtype := some wh.webhook_type, enabled := some wh.enabled,
    is_fixed := some wh.is_fixed, schedule_mode := some wh.schedule_mode,
    schedules := some wh.schedules, schedule_enabled := none,
    schedule_start := none, schedule_end := none,
    stats := some (wh.sent, wh.failed), created_at := some wh.created_at }

/-- `WebhookItem.from_dict` (lines 520-554) composed with
`WebhookItem.__init__`: the v4.4 legacy upgrade, the `or`-fallbacks for id
and name, and the restoration of stats and creation stamp. -/
def WebhookItem.from_dict (gen : Gen) (data : WebhookData) : WebhookItem :=
  let schedule_mode0 := data.schedule_mode.getD "off"
  let schedules0 := data.schedules.getD []
  let legacy := data.schedule_enabled.getD false && schedules0.isEmpty
  let schedule_mode := if legacy then "date_range" else schedule_mode0
  let schedules :=
    if legacy then
      [⟨some gen.today, some (data.schedule_start.getD "00:00"),
        some (data.schedule_end.getD "23:59")⟩]
    else schedules0
  let wtype := data.wtype.getD "discord"
  { id := if data.id.getD "" == "" then gen.freshId else data.id.getD "",
    url := data.url.getD "",
    name := if data.name.getD "" == "" then gen.freshName wtype else data.name.getD "",
    webhook_type := wtype,
    enabled := data.enabled.getD true,
    is_fixed := data.is_fixed.getD false,
    sent := (data.stats.getD (0, 0)).1,
    failed := (data.stats.getD (0, 0)).2,
    created_at := data.created_at.getD gen.createdAt,
    schedule_mode := schedule_mode,
    schedules := if schedules.isEmpty then [] else schedules }

/-- A saved group dict, as emitted by `BossGroup.to_save_dict` and read by
`BossGroup.from_dict` (the group id is the mapping key, passed separately). -/
structure GroupSave where
  display_name : Option String
  send_mode : Option String
  current_index : Option Nat
  webhooks : List WebhookData

/-- `BossGroup.to_save_dict` (lines 1025-1032). -/
def BossGroup.to_save_dict (g : GroupState) : GroupSave :=
  { display_name := some g.display_name, send_mode := some g.send_mode,
    current_index := some g.current_index,
    webhooks := g.webhooks.map WebhookItem.to_save_dict }

/-- Python `str.lower()`, modelled on ASCII (group ids are sanitized to
`[a-z0-9_]`, so only ASCII case matters here). -/
def strLower (s : String) : String := String.mk (s.data.map Char.toLower)

/-- Python `str.upper()`, modelled on ASCII. -/
def strUpper (s : String) : String := String.mk (s.data.map Char.toUpper)

/-- `BossGroup.__init__` (lines 688-697). -/
def newBossGroup (gid : String) (display_name : Option String) : GroupState :=
  { group_id := strLower gid,
    display_name :=
      if display_name.getD "" == "" then strUpper gid ++ " BOSS"
      else display_name.getD "",
    webhooks := [], send_mode := "sync", current_index := 0,
    received := 0, total_sent := 0, total_failed := 0, history := [] }

/-- `BossGroup.from_dict` (lines 1034-1045). -/
def BossGroup.from_dict (gen : Gen) (group_id : String) (data : GroupSave) : GroupState :=
  let g := newBossGroup group_id data.display_name
  { g with
    send_mode := data.send_mode.getD "sync",
    current_index := data.current_index.getD 0,
    webhooks := data.webhooks.map (WebhookItem.from_dict gen) }

/-- Request body of the admin schedule-replacement endpoint. -/
structure SchedulePayload where
  schedule_mode : Option String
  schedules : Option (List ScheduleEntry)

/-- The validation test of `set_webhook_schedule` (line 1515): a window is
kept iff its `date`, `start_time` and `end_time` are present and non-empty. -/
def validWindow (s : ScheduleEntry) : Bool :=
  truthyStr s.date && truthyStr s.start_time && truthyStr s.end_time

/-- The `(success, message)` pair an admin operation reports. -/
structure AdminResp where
  success : Bool
  message : String
deriving DecidableEq

/-- Core of the admin route `set_webhook_schedule` (lines 1485-1531), after
the group and webhook have been found: sets the mode, filters the submitted
windows through `validWindow`, stores the survivors, and reports. -/
def set_webhook_schedule (wh : WebhookItem) (data : SchedulePayload) :
    WebhookItem × AdminResp :=
  let wh1 := { wh with schedule_mode := data.schedule_mode.getD "off" }
  let wh2 :=
    match data.schedules with
    | none => wh1
    | some ss => { wh1 with schedules := ss.filter validWindow }
  let msg :=
    if wh2.schedule_mode == "off" then wh2.name ++ " 排程已關閉"
    else wh2.name ++ " 排程已更新 (" ++ toString wh2.schedules.length ++ " 筆)"
  (wh2, ⟨true, msg⟩)

/-- State of `WebhookRelayManager` relevant to the group lifecycle: the
`groups` dict as an insertion-ordered association list. -/
structure ManagerState where
  groups : List (String × GroupState)

/-- The key set of the manager's `groups` dict, in insertion order. -/
def groupKeys (m : ManagerState) : List String := m.groups.map Prod.fst

/-- `WebhookRelayManager.get_group` (lines 1216-1218):
`self.groups.get(group_id.lower())`. -/
def WebhookRelayManager.get_group (m : ManagerState) (gid : String) :
    Option GroupState :=
  (m.groups.find? (fun p => p.1 == strLower gid)).map Prod.snd

/-- `re.sub(r'[^a-zA-Z0-9_]', '', group_id.lower()) or "default"`
(line 1205). -/
def sanitizeGroupId (gid : String) : String :=
  let cleaned := String.mk ((strLower gid).data.filter (fun c => c.isAlphanum || c == '_'))
  if cleaned == "" then "default" else cleaned

/-- `WebhookRelayManager.create_group` (lines 1202-1214): sanitize the id,
insert a fresh group when absent, and return the group under the clean id. -/
def WebhookRelayManager.create_group (m : ManagerState) (gid : String)
    (display_name : Option String) : GroupState × ManagerState :=
  let clean := sanitizeGroupId gid
  match m.groups.find? (fun p => p.1 == clean) with
  | some p => (p.2, m)
  | none =>
    let g := newBossGroup clean display_name
    (g, ⟨m.groups ++ [(clean, g)]⟩)

/-- `WebhookRelayManager.get_or_create_group` (lines 1220-1222). -/
def WebhookRelayManager.get_or_create_group (m : ManagerState) (gid : String) :
    GroupState × ManagerState :=
  match WebhookRelayManager.get_group m gid with
  | some g => (g, m)
  | none => WebhookRelayManager.create_group m gid none

/-- Response of the inbound endpoint (status 400 on empty input, 200
otherwise; the 500 exception path has no counterpart in the pure model). -/
structure InboundResponse where
  ok : Bool
  message : String
  http_status : Nat

/-- Write back the relayed group's new state under its key (in Python the
`BossGroup` object is mutated in place, so the key set never changes). -/
def updateGroup (m : ManagerState) (key : String) (g : GroupState) : ManagerState :=
  ⟨m.groups.map (fun p => if p.1 == key then (p.1, g) else p)⟩

/-- The `receive_webhook` route (lines 1307-1358), after the caller layer has
resolved the attachment into `image_data`: acquire the group via
`get_or_create_group`, reject empty input, otherwise relay and record. -/
def receive_webhook (send : WebhookItem → Bool) (now : LocalNow)
    (m : ManagerState) (gid content : String) (image_data : Bool)
    (source_ip : String) : InboundResponse × ManagerState :=
  let gm := WebhookRelayManager.get_or_create_group m gid
  if content == "" && !image_data then
    (⟨false, "無內容", 400⟩, gm.2)
  else
    let res := BossGroup.relay_message send now gm.1 content image_data source_ip
    (⟨res.ok, res.msg, 200⟩, updateGroup gm.2 gm.1.group_id res.state)

/-- Cursor value after `k` successive calls of
`get_next_webhook_round_robin` on a fixed webhook list. -/
def rrCursorIter (now : LocalNow) (whs : List WebhookItem) (c : Nat) : Nat → Nat
  | 0 => c
  | k + 1 =>
    (BossGroup.get_next_webhook_round_robin now whs (rrCursorIter now whs c k)).2

/-- Selection of the `k`-th successive `get_next_webhook_round_robin` call. -/
def rrSelAt (now : LocalNow) (whs : List WebhookItem) (c : Nat) (k : Nat) :
    Option WebhookItem :=
  (BossGroup.get_next_webhook_round_robin now whs (rrCursorIter now whs c k)).1.1

/-- Concrete fixtures used by the witness theorems. -/
def wOff1 : WebhookItem :=
  { id := "w1", url := "https://a", name := "alpha", webhook_type := "discord",
    enabled := true, is_fixed := false, sent := 0, failed := 0,
    created_at := "t", schedule_mode := "off", schedules := [] }

def wOff2 : WebhookItem :=
  { wOff1 with
    id := "w2", url := "https://b", name := "beta" }

def wFixed : WebhookItem :=
  { wOff1 with
    id := "w3", url := "https://c", name := "gamma", is_fixed := true }

def wNever : WebhookItem :=
  { wOff1 with
    id := "w4", url := "https://d", name := "delta", schedule_mode := "date_range" }

def syncGroup : GroupState :=
  { group_id := "a", display_name := "A BOSS", webhooks := [wFixed, wOff1],
    send_mode := "sync", current_index := 0, received := 0, total_sent := 0,
    total_failed := 0, history := [] }

def rrGroup : GroupState :=
  { syncGroup with
    group_id := "b", display_name := "B BOSS", webhooks := [wOff1, wOff2],
    send_mode := "round_robin" }

def rrStuckGroup : GroupState :=
  { syncGroup with
    group_id := "x", display_name := "X BOSS", webhooks := [wNever],
    send_mode := "round_robin", current_index := 5 }

def gen0 : Gen := ⟨"abcd1234", fun t => "Webhook-" ++ t, "2025-02-23", "2025-02-23 00:00:00"⟩

def legacyData : WebhookData :=
  { id := some "w9", name := some "old", url := some "https://e",
    wtype := some "discord", enabled := some true, is_fixed := some false,
    schedule_mode := none, schedules := none, schedule_enabled := some true,
    schedule_start := some "08:00", schedule_end := some "20:00",
    stats := none, created_at := none }

def badWindow : ScheduleEntry := ⟨some "2025-02-23", none, some "22:00"⟩

def badPayload : SchedulePayload := ⟨some "date_range", some [badWindow]⟩

def emptyManager : ManagerState := ⟨[]⟩

/-- Claim C1: `is_in_schedule` returns true when `schedule_mode` is `"off"`;
in `"date_range"` mode it returns true iff some window has today's date and
covers the current time (with wraparound when `start_time > end_time`); in
`"date_range"` mode with an empty schedules list it returns false. -/
theorem schedule_coverage (wh : WebhookItem) (now : LocalNow) :
    (wh.schedule_mode = "off" → wh.is_in_schedule now = true) ∧
    (wh.schedule_mode = "date_range" →
      (wh.is_in_schedule now = true ↔
        ∃ s ∈ wh.schedules, s.date = some now.today ∧
          (let st := s.start_time.getD "00:00"
           let en := s.end_time.getD "23:59"
           if strLe st en then strLe st now.time = true ∧ strLe now.time en = true
           else strLe st now.time = true ∨ strLe now.time en = true))) ∧
    (wh.schedule_mode = "date_range" → wh.schedules = [] →
      wh.is_in_schedule now = false) := by
  refine ⟨fun h => by simp [WebhookItem.is_in_schedule, h], ?_, ?_⟩
  · intro h
    have hoff : wh.schedule_mode ≠ "off" := by simp [h]
    by_cases hempty : wh.schedules = []
    · simp [WebhookItem.is_in_schedule, hoff, hempty]
    · rw [WebhookItem.is_in_schedule, if_neg hoff,
        if_neg (by simp [List.isEmpty_iff, hempty])]
      rw [List.any_eq_true]
      constructor
      · rintro ⟨s, hs, hcov⟩
        refine ⟨s, hs, ?_⟩
        unfold coveredBy at hcov
        by_cases hd : s.date = some now.today
        · rw [if_pos hd] at hcov
          refine ⟨hd, ?_⟩
          by_cases hle : strLe (s.start_time.getD "00:00") (s.end_time.getD "23:59") = true
          · rw [if_pos hle] at hcov
            simp only [if_pos hle]
            simpa using hcov
          · rw [if_neg hle] at hcov
            simp only [if_neg hle]
            simpa using hcov
        · rw [if_neg hd] at hcov; exact absurd hcov (by simp)
      · rintro ⟨s, hs, hd, hcov⟩
        refine ⟨s, hs, ?_⟩
        unfold coveredBy
        rw [if_pos hd]
        by_cases hle : strLe (s.start_time.getD "00:00") (s.end_time.getD "23:59") = true
        · rw [if_pos hle]
          rw [if_pos hle] at hcov
          simpa using hcov
        · rw [if_neg hle]
          rw [if_neg hle] at hcov
          simpa using hcov
  · intro h hempty
    have hoff : wh.schedule_mode ≠ "off" := by simp [h]
    simp [WebhookItem.is_in_schedule, hoff, hempty]

/-- Witness for `schedule_coverage` at a concrete webhook and instant. -/
theorem schedule_coverage_witness :
    sampleNightWebhook.is_in_schedule sampleNight = true := by
  have h := (schedule_coverage sampleNightWebhook sampleNight).2.1 rfl
  refine h.mpr ⟨⟨some "2025-02-23", some "22:00", some "02:00"⟩, by simp [sampleNightWebhook],
    by simp [sampleNight], ?_⟩
  simp only [Option.getD_some]
  rw [if_neg (by decide)]
  exact Or.inl (by decide)

/-- Claim C5: a message with no image data whose non-empty text contains a
noise marker is suppressed entirely: no webhook is attempted (empty result
list), a history entry marked as filtered is prepended, the rest of the
group state is untouched, and the overall result is success. -/
theorem noise_filter_suppression (send : WebhookItem → Bool) (now : LocalNow)
    (g : GroupState) (content : String) (image_data : Bool) (source_ip : String)
    (h : isNoiseMessage content image_data = true) :
    BossGroup.relay_message send now g content image_data source_ip =
      { ok := true, msg := "已過濾", results := [],
        state :=
          { g with
            history := histPush
              { time := now.stamp, content := content.take 50,
                status := "已過濾（純文字）", source := lastChars 15 source_ip,
                has_image := false, mode := "過濾" } g.history } } := by
  unfold BossGroup.relay_message
  simp [h]

/-- Witness for `noise_filter_suppression` on the marker `"BOSS存在"`. -/
theorem noise_filter_suppression_witness :
    isNoiseMessage "BOSS存在" false = true ∧
    BossGroup.relay_message (fun _ => true) sampleNight syncGroup "BOSS存在" false "1.2.3.4" =
      { ok := true, msg := "已過濾", results := [],
        state :=
          { syncGroup with
            history := histPush
              { time := sampleNight.stamp, content := "BOSS存在".take 50,
                status := "已過濾（純文字）", source := lastChars 15 "1.2.3.4",
                has_image := false, mode := "過濾" } syncGroup.history } } :=
  ⟨by decide, noise_filter_suppression _ _ _ _ _ _ (by decide)⟩

/-- Claim C8: a saved webhook dict with a truthy legacy `schedule_enabled`
and no (or empty) `schedules` list loads as a webhook in `"date_range"` mode
with exactly one window dated today carrying the legacy start/end times. -/
theorem legacy_schedule_upgrade (gen : Gen) (data : WebhookData) (st en : String)
    (hen : data.schedule_enabled = some true)
    (hsch : data.schedules = none ∨ data.schedules = some [])
    (hst : data.schedule_start = some st)
    (hend : data.schedule_end = some en) :
    (WebhookItem.from_dict gen data).schedule_mode = "date_range" ∧
    (WebhookItem.from_dict gen data).schedules = [⟨some gen.today, some st, some en⟩] := by
  unfold WebhookItem.from_dict
  rcases hsch with h | h <;> simp [h, hen, hst, hend]

/-- Witness for `legacy_schedule_upgrade` on a concrete legacy dict. -/
theorem legacy_schedule_upgrade_witness :
    (WebhookItem.from_dict gen0 legacyData).schedule_mode = "date_range" ∧
    (WebhookItem.from_dict gen0 legacyData).schedules =
      [⟨some gen0.today, some "08:00", some "20:00"⟩] :=
  legacy_schedule_upgrade gen0 legacyData "08:00" "20:00" rfl (Or.inl rfl) rfl rfl

/-- Claim C6 counterexample: a submitted window missing `start_time` is not
rejected — the operation still reports success (the claim's synchronous
rejection does not happen). -/
theorem invalid_window_accepted_counterexample :
    validWindow badWindow = false ∧
    badPayload.schedules = some [badWindow] ∧
    (set_webhook_schedule sampleNightWebhook badPayload).2.success = true :=
  ⟨by decide, rfl, rfl⟩

/-- Claim C6 (amended): a submitted window lacking a non-empty date,
start_time or end_time is silently dropped — it is never stored in the
webhook's schedule collection nor in its persisted snapshot form — while
the operation reports success rather than rejecting. -/
theorem invalid_window_dropped (wh : WebhookItem) (data : SchedulePayload)
    (ss : List ScheduleEntry) (s : ScheduleEntry)
    (hss : data.schedules = some ss) (hbad : validWindow s = false) :
    (set_webhook_schedule wh data).2.success = true ∧
    s ∉ (set_webhook_schedule wh data).1.schedules ∧
    s ∉ ((set_webhook_schedule wh data).1.to_save_dict.schedules.getD []) := by
  unfold set_webhook_schedule WebhookItem.to_save_dict
  rw [hss]
  refine ⟨rfl, ?_, ?_⟩ <;>
    simp [List.mem_filter, hbad]

/-- Witness for `invalid_window_dropped` on `badPayload`. -/
theorem invalid_window_dropped_witness :
    (set_webhook_schedule dummyWebhook badPayload).2.success = true ∧
    badWindow ∉ (set_webhook_schedule dummyWebhook badPayload).1.schedules ∧
    badWindow ∉ ((set_webhook_schedule dummyWebhook badPayload).1.to_save_dict.schedules.getD []) :=
  invalid_window_dropped dummyWebhook badPayload [badWindow] badWindow rfl (by decide)

/-- Writing back a group's state never changes the key list of the
`groups` dict. -/
theorem groupKeys_updateGroup (m : ManagerState) (k : String) (g : GroupState) :
    groupKeys (updateGroup m k g) = groupKeys m := by
  show (m.groups.map (fun p => if p.1 == k then (p.1, g) else p)).map Prod.fst
      = m.groups.map Prod.fst
  induction m.groups with
  | nil => rfl
  | cons p t ih =>
    simp only [List.map_cons, ih]
    split <;> rfl

/-- Claim C9 counterexample: posting an inbound message for an unknown group
id creates that group — the group set does not stay unchanged. -/
theorem inbound_creates_group_counterexample :
    groupKeys emptyManager = [] ∧
    groupKeys (receive_webhook (fun _ => false) sampleNight emptyManager
      "boss1" "hello" false "9.9.9.9").2 = ["boss1"] := by
  constructor
  · rfl
  · decide

/-- Claim C9 (amended): the inbound dispatch path auto-creates a missing
group via `get_or_create_group`: when the lowercased id (or its sanitized
form) is already a key, the group key set is unchanged; otherwise the
sanitized id is appended to it.  Groups therefore also come into existence
through the inbound path, not only through the admin create operation. -/
theorem inbound_group_keys (send : WebhookItem → Bool) (now : LocalNow)
    (m : ManagerState) (gid content : String) (image_data : Bool) (src : String) :
    groupKeys (receive_webhook send now m gid content image_data src).2 =
      if (WebhookRelayManager.get_group m gid).isSome then groupKeys m
      else if (m.groups.find? (fun p => p.1 == sanitizeGroupId gid)).isSome then groupKeys m
      else groupKeys m ++ [sanitizeGroupId gid] := by
  unfold receive_webhook WebhookRelayManager.get_or_create_group
  cases hg : WebhookRelayManager.get_group m gid with
  | some g =>
    simp only [hg, Option.isSome_some, if_true]
    by_cases hc : (content == "" && !image_data) = true
    · simp [hc]
    · simp only [Bool.not_eq_true] at hc
      simp only [hc, Bool.false_eq_true, if_false]
      exact groupKeys_updateGroup m g.group_id _
  | none =>
    simp only [hg, Option.isSome_none, Bool.false_eq_true, if_false]
    unfold WebhookRelayManager.create_group
    cases hf : m.groups.find? (fun p => p.1 == sanitizeGroupId gid) with
    | some p =>
      simp only [hf, Option.isSome_some, if_true]
      by_cases hc : (content == "" && !image_data) = true
      · simp [hc]
      · simp only [Bool.not_eq_true] at hc
        simp only [hc, Bool.false_eq_true, if_false]
        exact groupKeys_updateGroup m p.2.group_id _
    | none =>
      simp only [hf, Option.isSome_none, Bool.false_eq_true, if_false]
      have hkeys : ∀ st : GroupState,
          groupKeys (updateGroup ⟨m.groups ++ [(sanitizeGroupId gid,
            newBossGroup (sanitizeGroupId gid) none)]⟩
              (newBossGroup (sanitizeGroupId gid) none).group_id st)
            = groupKeys m ++ [sanitizeGroupId gid] := by
        intro st
        rw [groupKeys_updateGroup]
        show (m.groups ++ [_]).map Prod.fst = m.groups.map Prod.fst ++ [sanitizeGroupId gid]
        rw [List.map_append]
        rfl
      by_cases hc : (content == "" && !image_data) = true
      · simp only [hc, if_true]
        show groupKeys ⟨m.groups ++ [_]⟩ = _
        show (m.groups ++ [_]).map Prod.fst = m.groups.map Prod.fst ++ [sanitizeGroupId gid]
        rw [List.map_append]
        rfl
      · simp only [Bool.not_eq_true] at hc
        simp only [hc, Bool.false_eq_true, if_false]
        exact hkeys _

/-- `schedules or []` in `WebhookItem.__init__` is the identity on lists. -/
theorem schedules_or_empty (l : List ScheduleEntry) :
    (if l.isEmpty then ([] : List ScheduleEntry) else l) = l := by
  cases l <;> rfl

/-- Loading a saved webhook dict restores the webhook exactly, provided its
id and name are non-empty (both always are: ids come from a hex digest,
names from the non-blank rename/default-name paths). -/
theorem webhook_from_to (gen : Gen) (wh : WebhookItem)
    (hid : wh.id ≠ "") (hname : wh.name ≠ "") :
    WebhookItem.from_dict gen wh.to_save_dict = wh := by
  obtain ⟨id, url, name, wtype, en, fx, s, f, ca, sm, sch⟩ := wh
  simp only [ne_eq] at hid hname
  unfold WebhookItem.from_dict WebhookItem.to_save_dict
  simp only [Option.getD_some, Option.getD_none, Bool.false_and, if_neg,
    beq_iff_eq, hid, hname, if_false, Bool.false_eq_true, schedules_or_empty]

/-- Loading the saved list of webhooks restores it exactly. -/
theorem webhooks_from_to (gen : Gen) (l : List WebhookItem)
    (h : ∀ wh ∈ l, wh.id ≠ "" ∧ wh.name ≠ "") :
    (l.map WebhookItem.to_save_dict).map (WebhookItem.from_dict gen) = l := by
  induction l with
  | nil => rfl
  | cons wh t ih =>
    have hw := h wh (by simp)
    simp only [List.map_cons, webhook_from_to gen wh hw.1 hw.2,
      ih (fun x hx => h x (by simp [hx]))]

/-- Claim C7: loading a group's saved form (`BossGroup.from_dict` of
`BossGroup.to_save_dict`, which applies `WebhookItem.from_dict` to each
saved webhook dict) reconstructs an equivalent group: same id, display
name, dispatch mode, cursor, and the identical webhook list (hence the same
webhook ids, names, schedules and counters).  The hypotheses are invariants
of every group the program builds: the stored id is already lowercase and
the display name, webhook ids and webhook names are non-blank. -/
theorem save_load_round_trip (gen : Gen) (g : GroupState)
    (hgid : strLower g.group_id = g.group_id)
    (hdn : g.display_name ≠ "")
    (hwh : ∀ wh ∈ g.webhooks, wh.id ≠ "" ∧ wh.name ≠ "") :
    (BossGroup.from_dict gen g.group_id (BossGroup.to_save_dict g)).group_id = g.group_id ∧
    (BossGroup.from_dict gen g.group_id (BossGroup.to_save_dict g)).display_name = g.display_name ∧
    (BossGroup.from_dict gen g.group_id (BossGroup.to_save_dict g)).send_mode = g.send_mode ∧
    (BossGroup.from_dict gen g.group_id (BossGroup.to_save_dict g)).current_index = g.current_index ∧
    (BossGroup.from_dict gen g.group_id (BossGroup.to_save_dict g)).webhooks = g.webhooks := by
  unfold BossGroup.from_dict BossGroup.to_save_dict newBossGroup
  refine ⟨hgid, ?_, rfl, rfl, webhooks_from_to gen g.webhooks hwh⟩
  simp only [Option.getD_some, beq_iff_eq, hdn, if_false, ite_eq_right_iff]

/-- Witness for `save_load_round_trip` on a concrete two-webhook group. -/
theorem save_load_round_trip_witness :
    (BossGroup.from_dict gen0 rrGroup.group_id (BossGroup.to_save_dict rrGroup)).group_id = rrGroup.group_id ∧
    (BossGroup.from_dict gen0 rrGroup.group_id (BossGroup.to_save_dict rrGroup)).display_name = rrGroup.display_name ∧
    (BossGroup.from_dict gen0 rrGroup.group_id (BossGroup.to_save_dict rrGroup)).send_mode = rrGroup.send_mode ∧
    (BossGroup.from_dict gen0 rrGroup.group_id (BossGroup.to_save_dict rrGroup)).current_index = rrGroup.current_index ∧
    (BossGroup.from_dict gen0 rrGroup.group_id (BossGroup.to_save_dict rrGroup)).webhooks = rrGroup.webhooks :=
  save_load_round_trip gen0 rrGroup (by decide) (by decide) (by decide)

/-- An in-range `getD` is a member of the list. -/
theorem getD_mem_of_lt (l : List WebhookItem) (i : Nat) (h : i < l.length) :
    l.getD i dummyWebhook ∈ l := by
  rw [List.getD_eq_getElem l dummyWebhook h]
  exact List.getElem_mem h

/-- `getD` commutes with `map` at in-range positions. -/
theorem getD_map_comm (f : WebhookItem → WebhookItem) (l : List WebhookItem)
    (i : Nat) (h : i < l.length) :
    (l.map f).getD i dummyWebhook = f (l.getD i dummyWebhook) := by
  rw [List.getD_eq_getElem _ dummyWebhook (by simpa), List.getD_eq_getElem l dummyWebhook h]
  exact List.getElem_map f

/-- `bumpFirst` leaves every position holding a value different from the
selected webhook unchanged. -/
theorem bumpFirst_getD_ne (send : WebhookItem → Bool) (sel : WebhookItem)
    (l : List WebhookItem) (i : Nat)
    (hne : l.getD i dummyWebhook ≠ sel) :
    (bumpFirst send sel l).getD i dummyWebhook = l.getD i dummyWebhook := by
  induction l generalizing i with
  | nil => rfl
  | cons wh t ih =>
    unfold bumpFirst
    by_cases hw : wh = sel
    · rw [if_pos hw]
      cases i with
      | zero => exact absurd hw hne
      | succ j => rfl
    · rw [if_neg hw]
      cases i with
      | zero => rfl
      | succ j => exact ih j hne

/-- A webhook selected by the round-robin loop is one of the eligible
webhooks handed to the loop. -/
theorem rrGo_sel_mem (now : LocalNow) (enabled : List WebhookItem)
    (hne : enabled ≠ []) :
    ∀ fuel idx acc w s n,
      rrGo now enabled fuel idx acc = ((some w, s), n) → w ∈ enabled := by
  intro fuel
  induction fuel with
  | zero =>
    intro idx acc w s n h
    simp [rrGo] at h
  | succ fuel ih =>
    intro idx acc w s n h
    simp only [rrGo] at h
    split at h
    · injection h with h1 h2
      injection h1 with ha hb
      injection ha with hw
      rw [← hw]
      exact getD_mem_of_lt _ _ (Nat.mod_lt _ (List.length_pos.mpr hne))
    · exact ih _ _ _ _ _ h

/-- A webhook selected by `get_next_webhook_round_robin` is enabled and not
fixed. -/
theorem get_next_sel_not_fixed (now : LocalNow) (whs : List WebhookItem)
    (idx : Nat) (w : WebhookItem) (s : List WebhookItem) (n : Nat)
    (h : BossGroup.get_next_webhook_round_robin now whs idx = ((some w, s), n)) :
    w.enabled = true ∧ w.is_fixed = false := by
  unfold BossGroup.get_next_webhook_round_robin at h
  by_cases hE : (BossGroup.get_enabled_webhooks whs true).isEmpty = true
  · rw [if_pos hE] at h
    exact absurd h (by simp)
  · rw [if_neg hE] at h
    have hne : BossGroup.get_enabled_webhooks whs true ≠ [] := by
      intro h0; rw [h0] at hE; exact hE rfl
    have hmem := rrGo_sel_mem now _ hne _ _ _ _ _ _ h
    unfold BossGroup.get_enabled_webhooks at hmem
    simp only [if_pos] at hmem
    have h2 := List.mem_filter.mp hmem
    have h1 := List.mem_filter.mp h2.1
    refine ⟨h1.2, ?_⟩
    have := h2.2
    simpa using this

/-- The returned result list of `finishRelay` is the accumulated `results`. -/
theorem finishRelay_results (now : LocalNow) (g : GroupState)
    (nw : List WebhookItem) (res : List ResultEntry) (content : String)
    (image_data : Bool) (src : String) (idx2 : Nat) :
    (finishRelay now g nw res content image_data src idx2).results = res := rfl

/-- The webhook list stored by `finishRelay` is the updated list it is
handed. -/
theorem finishRelay_webhooks (now : LocalNow) (g : GroupState)
    (nw : List WebhookItem) (res : List ResultEntry) (content : String)
    (image_data : Bool) (src : String) (idx2 : Nat) :
    (finishRelay now g nw res content image_data src idx2).state.webhooks = nw := rfl

/-- The cursor stored by `finishRelay` is the one it is handed. -/
theorem finishRelay_index (now : LocalNow) (g : GroupState)
    (nw : List WebhookItem) (res : List ResultEntry) (content : String)
    (image_data : Bool) (src : String) (idx2 : Nat) :
    (finishRelay now g nw res content image_data src idx2).state.current_index = idx2 := rfl

/-- The overall outcome of `finishRelay` is `success_count > 0`. -/
theorem finishRelay_ok (now : LocalNow) (g : GroupState)
    (nw : List WebhookItem) (res : List ResultEntry) (content : String)
    (image_data : Bool) (src : String) (idx2 : Nat) :
    (finishRelay now g nw res content image_data src idx2).ok
      = decide (0 < res.countP (fun r => r.success)) := rfl

/-- Claim C2: on every non-suppressed dispatch, whatever the send mode, an
enabled fixed webhook is attempted (a non-skipped fixed result entry with
the oracle's outcome is recorded) iff it is currently covered by its own
schedule; when not covered it is recorded as skipped and not attempted (its
stored counters are untouched). -/
theorem fixed_pass_gated_by_schedule (send : WebhookItem → Bool) (now : LocalNow)
    (g : GroupState) (content : String) (image_data : Bool) (src : String)
    (hns : isNoiseMessage content image_data = false)
    (i : Nat) (hi : i < g.webhooks.length)
    (hf : (g.webhooks.getD i dummyWebhook).is_fixed = true)
    (he : (g.webhooks.getD i dummyWebhook).enabled = true) :
    ((g.webhooks.getD i dummyWebhook).is_in_schedule now = true →
      ({ name := (g.webhooks.getD i dummyWebhook).name,
         wtype := (g.webhooks.getD i dummyWebhook).webhook_type,
         success := send (g.webhooks.getD i dummyWebhook),
         is_fixed := true, skipped := false } : ResultEntry)
        ∈ (BossGroup.relay_message send now g content image_data src).results) ∧
    ((g.webhooks.getD i dummyWebhook).is_in_schedule now = false →
      ({ name := (g.webhooks.getD i dummyWebhook).name,
         wtype := (g.webhooks.getD i dummyWebhook).webhook_type,
         success := false, is_fixed := true, skipped := true } : ResultEntry)
        ∈ (BossGroup.relay_message send now g content image_data src).results ∧
      (BossGroup.relay_message send now g content image_data src).state.webhooks.getD i dummyWebhook
        = g.webhooks.getD i dummyWebhook) := by
  have hmem : g.webhooks.getD i dummyWebhook ∈ g.webhooks := getD_mem_of_lt _ _ hi
  have hfix : g.webhooks.getD i dummyWebhook ∈ BossGroup.get_fixed_webhooks g.webhooks := by
    unfold BossGroup.get_fixed_webhooks
    exact List.mem_filter.mpr ⟨hmem, by simp only [hf, he, Bool.and_self]⟩
  have hfixE : (BossGroup.get_fixed_webhooks g.webhooks).isEmpty = false := by
    cases hE : BossGroup.get_fixed_webhooks g.webhooks with
    | nil => rw [hE] at hfix; simp at hfix
    | cons a t => rfl
  constructor
  · -- covered: the attempted fixed entry is recorded
    intro hcov
    have hentry :
        ({ name := (g.webhooks.getD i dummyWebhook).name,
           wtype := (g.webhooks.getD i dummyWebhook).webhook_type,
           success := send (g.webhooks.getD i dummyWebhook),
           is_fixed := true, skipped := false } : ResultEntry)
          ∈ (BossGroup.get_fixed_webhooks g.webhooks).map (fun wh =>
              if wh.is_in_schedule now then
                ({ name := wh.name, wtype := wh.webhook_type, success := send wh,
                   is_fixed := true, skipped := false } : ResultEntry)
              else
                ({ name := wh.name, wtype := wh.webhook_type, success := false,
                   is_fixed := true, skipped := true } : ResultEntry)) :=
      List.mem_map.mpr ⟨_, hfix, by rw [if_pos hcov]⟩
    unfold BossGroup.relay_message
    rw [if_neg (by simp [hns])]
    dsimp only
    by_cases hmode : (g.send_mode == "sync") = true
    · rw [if_pos hmode, if_neg (by simp [hfixE]), finishRelay_results]
      simp only [List.mem_append]
      tauto
    · rw [if_neg hmode]
      cases hsel : (BossGroup.get_next_webhook_round_robin now g.webhooks g.current_index).1.1 with
      | none =>
        dsimp only
        rw [if_neg (by simp [hfixE]), finishRelay_results]
        simp only [List.mem_append]
        tauto
      | some w =>
        dsimp only
        rw [finishRelay_results]
        simp only [List.mem_append]
        tauto
  · -- not covered: the skipped fixed entry is recorded and counters untouched
    intro hcov
    have hentry :
        ({ name := (g.webhooks.getD i dummyWebhook).name,
           wtype := (g.webhooks.getD i dummyWebhook).webhook_type,
           success := false, is_fixed := true, skipped := true } : ResultEntry)
          ∈ (BossGroup.get_fixed_webhooks g.webhooks).map (fun wh =>
              if wh.is_in_schedule now then
                ({ name := wh.name, wtype := wh.webhook_type, success := send wh,
                   is_fixed := true, skipped := false } : ResultEntry)
              else
                ({ name := wh.name, wtype := wh.webhook_type, success := false,
                   is_fixed := true, skipped := true } : ResultEntry)) :=
      List.mem_map.mpr ⟨_, hfix, by rw [if_neg (by rw [hcov]; simp)]⟩
    have hafter :
        (g.webhooks.map (fun wh =>
            if wh.is_fixed && wh.enabled && wh.is_in_schedule now then bump send wh else wh)).getD
          i dummyWebhook = g.webhooks.getD i dummyWebhook := by
      rw [getD_map_comm _ _ _ hi, if_neg (by rw [hcov]; simp)]
    unfold BossGroup.relay_message
    rw [if_neg (by simp [hns])]
    dsimp only
    by_cases hmode : (g.send_mode == "sync") = true
    · rw [if_pos hmode, if_neg (by simp [hfixE])]
      constructor
      · rw [finishRelay_results]
        simp only [List.mem_append]
        tauto
      · rw [finishRelay_webhooks, getD_map_comm _ _ _ hi, if_neg (by rw [hcov]; simp)]
    · rw [if_neg hmode]
      cases hsel : (BossGroup.get_next_webhook_round_robin now g.webhooks g.current_index).1.1 with
      | none =>
        dsimp only
        rw [if_neg (by simp [hfixE])]
        constructor
        · rw [finishRelay_results]
          simp only [List.mem_append]
          tauto
        · rw [finishRelay_webhooks]
          exact hafter
      | some w =>
        dsimp only
        constructor
        · rw [finishRelay_results]
          simp only [List.mem_append]
          tauto
        · have hsel2 : BossGroup.get_next_webhook_round_robin now g.webhooks g.current_index =
              ((some w,
                (BossGroup.get_next_webhook_round_robin now g.webhooks g.current_index).1.2),
                (BossGroup.get_next_webhook_round_robin now g.webhooks g.current_index).2) := by
            rw [← hsel]
          have hw := get_next_sel_not_fixed now g.webhooks g.current_index w _ _ hsel2
          have hneq : (g.webhooks.map (fun wh =>
              if wh.is_fixed && wh.enabled && wh.is_in_schedule now then bump send wh else wh)).getD
                i dummyWebhook ≠ w := by
            rw [hafter]
            intro hEq
            rw [← hEq] at hw
            rw [hf] at hw
            exact absurd hw.2 (by simp)
          rw [finishRelay_webhooks, bumpFirst_getD_ne send w _ i hneq]
          exact hafter

/-- Witness for `fixed_pass_gated_by_schedule`: a covered, enabled, fixed
webhook is attempted on a concrete sync-mode dispatch. -/
theorem fixed_pass_gated_by_schedule_witness :
    ({ name := "gamma", wtype := "discord", success := true,
       is_fixed := true, skipped := false } : ResultEntry)
      ∈ (BossGroup.relay_message (fun _ => true) sampleNight syncGroup
          "hello" false "7.7.7.7").results :=
  (fixed_pass_gated_by_schedule (fun _ => true) sampleNight syncGroup "hello" false "7.7.7.7"
    (by decide) 0 (by decide) (by decide) (by decide)).1 (by decide)

/-- One iteration of the round-robin loop selects the candidate at the
normalized cursor when it is covered, advancing the cursor past it. -/
theorem rrGo_step (now : LocalNow) (enabled : List WebhookItem)
    (fuel idx : Nat) (acc : List WebhookItem)
    (hc : (enabled.getD (idx % enabled.length) dummyWebhook).is_in_schedule now = true) :
    rrGo now enabled (fuel + 1) idx acc =
      ((some (enabled.getD (idx % enabled.length) dummyWebhook), acc),
        (idx % enabled.length + 1) % enabled.length) := by
  simp only [rrGo]
  rw [if_pos hc]

/-- When every eligible webhook is covered, `get_next_webhook_round_robin`
selects the one at the normalized cursor, skips nobody, and advances the
cursor one position past the selection. -/
theorem get_next_covered (now : LocalNow) (whs : List WebhookItem) (idx : Nat)
    (hcov : ∀ wh ∈ BossGroup.get_enabled_webhooks whs true, wh.is_in_schedule now = true)
    (hne : BossGroup.get_enabled_webhooks whs true ≠ []) :
    BossGroup.get_next_webhook_round_robin now whs idx =
      ((some ((BossGroup.get_enabled_webhooks whs true).getD
          (idx % (BossGroup.get_enabled_webhooks whs true).length) dummyWebhook), []),
        (idx % (BossGroup.get_enabled_webhooks whs true).length + 1)
          % (BossGroup.get_enabled_webhooks whs true).length) := by
  have hN : 0 < (BossGroup.get_enabled_webhooks whs true).length := List.length_pos.mpr hne
  have hE : (BossGroup.get_enabled_webhooks whs true).isEmpty = false := by
    cases h : BossGroup.get_enabled_webhooks whs true with
    | nil => exact absurd h hne
    | cons a t => rfl
  have hc : ((BossGroup.get_enabled_webhooks whs true).getD
      (idx % (BossGroup.get_enabled_webhooks whs true).length) dummyWebhook).is_in_schedule now
        = true :=
    hcov _ (getD_mem_of_lt _ _ (Nat.mod_lt idx hN))
  obtain ⟨m, hm⟩ : ∃ m, (BossGroup.get_enabled_webhooks whs true).length = m + 1 :=
    ⟨_, (Nat.succ_pred_eq_of_pos hN).symm⟩
  unfold BossGroup.get_next_webhook_round_robin
  rw [if_neg (by simp [hE])]
  conv_lhs => rw [hm]
  exact rrGo_step now _ m idx [] hc

/-- Cursor value after `k+1` all-covered round-robin calls. -/
theorem rr_cursor_covered (now : LocalNow) (whs : List WebhookItem) (c : Nat)
    (hcov : ∀ wh ∈ BossGroup.get_enabled_webhooks whs true, wh.is_in_schedule now = true)
    (hne : BossGroup.get_enabled_webhooks whs true ≠ []) :
    ∀ k, rrCursorIter now whs c (k + 1)
      = (c % (BossGroup.get_enabled_webhooks whs true).length + (k + 1))
          % (BossGroup.get_enabled_webhooks whs true).length := by
  have hN : 0 < (BossGroup.get_enabled_webhooks whs true).length := List.length_pos.mpr hne
  intro k
  induction k with
  | zero =>
    show (BossGroup.get_next_webhook_round_robin now whs (rrCursorIter now whs c 0)).2 = _
    rw [show rrCursorIter now whs c 0 = c from rfl, get_next_covered now whs c hcov hne]
  | succ k ih =>
    show (BossGroup.get_next_webhook_round_robin now whs (rrCursorIter now whs c (k + 1))).2 = _
    rw [ih, get_next_covered now whs _ hcov hne]
    show ((c % (BossGroup.get_enabled_webhooks whs true).length + (k + 1))
          % (BossGroup.get_enabled_webhooks whs true).length
          % (BossGroup.get_enabled_webhooks whs true).length + 1)
        % (BossGroup.get_enabled_webhooks whs true).length = _
    rw [Nat.mod_mod]
    exact Nat.mod_add_mod _ _ _

/-- Selection of the `k`-th all-covered round-robin call. -/
theorem rr_sel_covered (now : LocalNow) (whs : List WebhookItem) (c : Nat)
    (hcov : ∀ wh ∈ BossGroup.get_enabled_webhooks whs true, wh.is_in_schedule now = true)
    (hne : BossGroup.get_enabled_webhooks whs true ≠ []) :
    ∀ k, rrSelAt now whs c k
      = some ((BossGroup.get_enabled_webhooks whs true).getD
          ((c % (BossGroup.get_enabled_webhooks whs true).length + k)
            % (BossGroup.get_enabled_webhooks whs true).length) dummyWebhook) := by
  intro k
  cases k with
  | zero =>
    show (BossGroup.get_next_webhook_round_robin now whs (rrCursorIter now whs c 0)).1.1 = _
    rw [show rrCursorIter now whs c 0 = c from rfl, get_next_covered now whs c hcov hne]
    show some ((BossGroup.get_enabled_webhooks whs true).getD
        (c % (BossGroup.get_enabled_webhooks whs true).length) dummyWebhook)
      = some ((BossGroup.get_enabled_webhooks whs true).getD
          ((c % (BossGroup.get_enabled_webhooks whs true).length + 0)
            % (BossGroup.get_enabled_webhooks whs true).length) dummyWebhook)
    rw [Nat.add_zero, Nat.mod_mod]
  | succ k =>
    show (BossGroup.get_next_webhook_round_robin now whs (rrCursorIter now whs c (k + 1))).1.1 = _
    rw [rr_cursor_covered now whs c hcov hne k, get_next_covered now whs _ hcov hne]
    show some ((BossGroup.get_enabled_webhooks whs true).getD
        ((c % (BossGroup.get_enabled_webhooks whs true).length + (k + 1))
          % (BossGroup.get_enabled_webhooks whs true).length
          % (BossGroup.get_enabled_webhooks whs true).length) dummyWebhook)
      = some ((BossGroup.get_enabled_webhooks whs true).getD
          ((c % (BossGroup.get_enabled_webhooks whs true).length + (k + 1))
            % (BossGroup.get_enabled_webhooks whs true).length) dummyWebhook)
    rw [Nat.mod_mod]

/-- Claim C3: in a round-robin group whose `N` eligible (enabled, non-fixed)
webhooks are all covered, the `k`-th consecutive `get_next_webhook_round_robin`
call selects the eligible webhook at position `(cursor % N + k) % N`; these
positions are pairwise distinct over `N` consecutive calls and cover every
position, so each eligible webhook is selected exactly once before any
repeats (the selection sequence has period `N`); each call advances the
cursor one position past its selection. -/
theorem round_robin_period (now : LocalNow) (g : GroupState)
    (_hmode : g.send_mode = "round_robin")
    (hcov : ∀ wh ∈ BossGroup.get_enabled_webhooks g.webhooks true,
      wh.is_in_schedule now = true)
    (hne : BossGroup.get_enabled_webhooks g.webhooks true ≠ []) :
    (∀ k, rrSelAt now g.webhooks g.current_index k
      = some ((BossGroup.get_enabled_webhooks g.webhooks true).getD
          ((g.current_index % (BossGroup.get_enabled_webhooks g.webhooks true).length + k)
            % (BossGroup.get_enabled_webhooks g.webhooks true).length) dummyWebhook)) ∧
    (∀ j k, j < (BossGroup.get_enabled_webhooks g.webhooks true).length →
      k < (BossGroup.get_enabled_webhooks g.webhooks true).length →
      (g.current_index % (BossGroup.get_enabled_webhooks g.webhooks true).length + j)
          % (BossGroup.get_enabled_webhooks g.webhooks true).length
        = (g.current_index % (BossGroup.get_enabled_webhooks g.webhooks true).length + k)
            % (BossGroup.get_enabled_webhooks g.webhooks true).length → j = k) ∧
    (∀ p, p < (BossGroup.get_enabled_webhooks g.webhooks true).length →
      ∃ k, k < (BossGroup.get_enabled_webhooks g.webhooks true).length ∧
        (g.current_index % (BossGroup.get_enabled_webhooks g.webhooks true).length + k)
          % (BossGroup.get_enabled_webhooks g.webhooks true).length = p) ∧
    (∀ k, rrCursorIter now g.webhooks g.current_index (k + 1)
      = ((g.current_index % (BossGroup.get_enabled_webhooks g.webhooks true).length + k)
            % (BossGroup.get_enabled_webhooks g.webhooks true).length + 1)
          % (BossGroup.get_enabled_webhooks g.webhooks true).length) ∧
    (∀ k, rrSelAt now g.webhooks g.current_index
        (k + (BossGroup.get_enabled_webhooks g.webhooks true).length)
      = rrSelAt now g.webhooks g.current_index k) := by
  have hN : 0 < (BossGroup.get_enabled_webhooks g.webhooks true).length :=
    List.length_pos.mpr hne
  have hcN : g.current_index % (BossGroup.get_enabled_webhooks g.webhooks true).length
      < (BossGroup.get_enabled_webhooks g.webhooks true).length :=
    Nat.mod_lt _ hN
  refine ⟨rr_sel_covered now g.webhooks g.current_index hcov hne, ?_, ?_, ?_, ?_⟩
  · intro j k hj hk h
    have hmod : j % (BossGroup.get_enabled_webhooks g.webhooks true).length
        = k % (BossGroup.get_enabled_webhooks g.webhooks true).length :=
      Nat.ModEq.add_left_cancel' _ h
    rw [Nat.mod_eq_of_lt hj, Nat.mod_eq_of_lt hk] at hmod
    exact hmod
  · intro p hp
    by_cases hle : g.current_index % (BossGroup.get_enabled_webhooks g.webhooks true).length ≤ p
    · refine ⟨p - g.current_index % (BossGroup.get_enabled_webhooks g.webhooks true).length,
        by omega, ?_⟩
      have h1 : g.current_index % (BossGroup.get_enabled_webhooks g.webhooks true).length
          + (p - g.current_index % (BossGroup.get_enabled_webhooks g.webhooks true).length)
            = p := by omega
      rw [h1, Nat.mod_eq_of_lt hp]
    · refine ⟨p + (BossGroup.get_enabled_webhooks g.webhooks true).length
          - g.current_index % (BossGroup.get_enabled_webhooks g.webhooks true).length,
        by omega, ?_⟩
      have h1 : g.current_index % (BossGroup.get_enabled_webhooks g.webhooks true).length
          + (p + (BossGroup.get_enabled_webhooks g.webhooks true).length
            - g.current_index % (BossGroup.get_enabled_webhooks g.webhooks true).length)
            = p + (BossGroup.get_enabled_webhooks g.webhooks true).length := by omega
      rw [h1, Nat.add_mod_right, Nat.mod_eq_of_lt hp]
  · intro k
    rw [rr_cursor_covered now g.webhooks g.current_index hcov hne k]
    exact (Nat.mod_add_mod
      (g.current_index % (BossGroup.get_enabled_webhooks g.webhooks true).length + k)
      (BossGroup.get_enabled_webhooks g.webhooks true).length 1).symm
  · intro k
    rw [rr_sel_covered now g.webhooks g.current_index hcov hne
        (k + (BossGroup.get_enabled_webhooks g.webhooks true).length),
      rr_sel_covered now g.webhooks g.current_index hcov hne k]
    have h1 : g.current_index % (BossGroup.get_enabled_webhooks g.webhooks true).length
        + (k + (BossGroup.get_enabled_webhooks g.webhooks true).length)
          = (g.current_index % (BossGroup.get_enabled_webhooks g.webhooks true).length + k)
            + (BossGroup.get_enabled_webhooks g.webhooks true).length := by omega
    rw [h1, Nat.add_mod_right]

/-- Witness for `round_robin_period`: a concrete two-webhook round-robin
group visits `alpha` then `beta`. -/
theorem round_robin_period_witness :
    rrSelAt sampleNight rrGroup.webhooks rrGroup.current_index 0 = some wOff1 ∧
    rrSelAt sampleNight rrGroup.webhooks rrGroup.current_index 1 = some wOff2 := by
  have h := round_robin_period sampleNight rrGroup rfl (by decide) (by decide)
  exact ⟨(h.1 0).trans (by decide), (h.1 1).trans (by decide)⟩

/-- With at least one iteration left, the round-robin loop first normalizes
the cursor, so starting from `idx` and from `idx % total` agree. -/
theorem rrGo_mod (now : LocalNow) (enabled : List WebhookItem)
    (fuel idx : Nat) (acc : List WebhookItem) :
    rrGo now enabled (fuel + 1) idx acc =
      rrGo now enabled (fuel + 1) (idx % enabled.length) acc := by
  simp only [rrGo, Nat.mod_mod]

/-- Positions `(c % N + k) % N` for `k < N` reach every position `p < N`. -/
theorem mod_shift_surj (c N p : Nat) (hN : 0 < N) (hp : p < N) :
    ∃ k, k < N ∧ (c % N + k) % N = p := by
  have hcN : c % N < N := Nat.mod_lt _ hN
  by_cases hle : c % N ≤ p
  · refine ⟨p - c % N, by omega, ?_⟩
    have h1 : c % N + (p - c % N) = p := by omega
    rw [h1, Nat.mod_eq_of_lt hp]
  · refine ⟨p + N - c % N, by omega, ?_⟩
    have h1 : c % N + (p + N - c % N) = p + N := by omega
    rw [h1, Nat.add_mod_right, Nat.mod_eq_of_lt hp]

/-- The rotated walk over all positions visits every list element. -/
theorem range_map_covers (E : List WebhookItem) (c : Nat) (hN : 0 < E.length) :
    ∀ wh ∈ E, wh ∈ (List.range E.length).map (fun t =>
      E.getD ((c % E.length + t) % E.length) dummyWebhook) := by
  intro wh hwh
  obtain ⟨p, hp, hEp⟩ := List.mem_iff_getElem.mp hwh
  obtain ⟨t, ht, hteq⟩ := mod_shift_surj c E.length p hN hp
  refine List.mem_map.mpr ⟨t, List.mem_range.mpr ht, ?_⟩
  rw [hteq, List.getD_eq_getElem _ _ hp, hEp]

/-- When no eligible webhook is covered and the start cursor is in range,
the loop selects nothing, skips the whole rotation in order, and leaves the
cursor at `(idx + fuel) % N`. -/
theorem rrGo_none_inv (now : LocalNow) (enabled : List WebhookItem)
    (huncov : ∀ wh ∈ enabled, wh.is_in_schedule now = false)
    (hN : 0 < enabled.length) :
    ∀ fuel idx acc, idx < enabled.length →
      rrGo now enabled fuel idx acc =
        ((none, acc ++ (List.range fuel).map (fun t =>
            enabled.getD ((idx + t) % enabled.length) dummyWebhook)),
          (idx + fuel) % enabled.length) := by
  intro fuel
  induction fuel with
  | zero =>
    intro idx acc hidx
    simp [rrGo, Nat.mod_eq_of_lt hidx]
  | succ fuel ih =>
    intro idx acc hidx
    have hidx2 : idx % enabled.length = idx := Nat.mod_eq_of_lt hidx
    have hcand : (enabled.getD idx dummyWebhook).is_in_schedule now = false :=
      huncov _ (getD_mem_of_lt _ _ hidx)
    simp only [rrGo]
    rw [hidx2]
    rw [if_neg (by rw [hcand]; simp)]
    rw [ih ((idx + 1) % enabled.length) _ (Nat.mod_lt _ hN)]
    simp only [Prod.mk.injEq, List.append_assoc]
    refine ⟨⟨trivial, ?_⟩, ?_⟩
    · congr 1
      rw [List.range_succ_eq_map, List.map_cons, List.map_map, List.singleton_append]
      congr 1
      · rw [Nat.add_zero, hidx2]
      · refine List.map_congr_left ?_
        intro t _
        show enabled.getD (((idx + 1) % enabled.length + t) % enabled.length) dummyWebhook = _
        rw [Nat.mod_add_mod]
        congr 2
        omega
    · rw [Nat.mod_add_mod]
      congr 1
      omega

/-- When no eligible webhook is covered, `get_next_webhook_round_robin`
selects nothing, records the whole eligible rotation as skipped, and leaves
the cursor at its old value reduced modulo the eligible count. -/
theorem get_next_none (now : LocalNow) (whs : List WebhookItem) (idx : Nat)
    (huncov : ∀ wh ∈ BossGroup.get_enabled_webhooks whs true, wh.is_in_schedule now = false)
    (hne : BossGroup.get_enabled_webhooks whs true ≠ []) :
    BossGroup.get_next_webhook_round_robin now whs idx =
      ((none, (List.range (BossGroup.get_enabled_webhooks whs true).length).map (fun t =>
          (BossGroup.get_enabled_webhooks whs true).getD
            ((idx % (BossGroup.get_enabled_webhooks whs true).length + t)
              % (BossGroup.get_enabled_webhooks whs true).length) dummyWebhook)),
        idx % (BossGroup.get_enabled_webhooks whs true).length) := by
  have hN : 0 < (BossGroup.get_enabled_webhooks whs true).length := List.length_pos.mpr hne
  have hE : (BossGroup.get_enabled_webhooks whs true).isEmpty = false := by
    cases h : BossGroup.get_enabled_webhooks whs true with
    | nil => exact absurd h hne
    | cons a t => rfl
  obtain ⟨m, hm⟩ : ∃ m, (BossGroup.get_enabled_webhooks whs true).length = m + 1 :=
    ⟨_, (Nat.succ_pred_eq_of_pos hN).symm⟩
  unfold BossGroup.get_next_webhook_round_robin
  rw [if_neg (by simp [hE])]
  conv_lhs => rw [hm]
  rw [rrGo_mod, ← hm]
  rw [rrGo_none_inv now _ huncov hN _ _ _ (Nat.mod_lt _ hN)]
  rw [List.nil_append, Nat.add_mod_right, Nat.mod_mod]

/-- Every entry produced by the fixed pass is marked `is_fixed`. -/
theorem fixed_results_fixed (send : WebhookItem → Bool) (now : LocalNow)
    (whs : List WebhookItem) :
    ∀ r ∈ (BossGroup.get_fixed_webhooks whs).map (fun wh =>
        if wh.is_in_schedule now then
          ({ name := wh.name, wtype := wh.webhook_type, success := send wh,
             is_fixed := true, skipped := false } : ResultEntry)
        else
          ({ name := wh.name, wtype := wh.webhook_type, success := false,
             is_fixed := true, skipped := true } : ResultEntry)),
      r.is_fixed = true := by
  intro r hr
  obtain ⟨wh, _, hwh⟩ := List.mem_map.mp hr
  rw [← hwh]
  by_cases hc : wh.is_in_schedule now = true
  · rw [if_pos hc]
  · rw [if_neg hc]

/-- Every entry recorded for a skipped round-robin webhook is a failure-free
skip. -/
theorem map_skipped_success (l : List WebhookItem) :
    ∀ r ∈ l.map (fun wh =>
        ({ name := wh.name, wtype := wh.webhook_type, success := false,
           is_fixed := false, skipped := true } : ResultEntry)),
      r.success = false := by
  intro r hr
  obtain ⟨wh, _, hwh⟩ := List.mem_map.mp hr
  rw [← hwh]

/-- On every non-suppressed dispatch the reported overall result is true iff
some recorded attempt succeeded. -/
theorem relay_ok_iff (send : WebhookItem → Bool) (now : LocalNow)
    (g : GroupState) (content : String) (image_data : Bool) (src : String)
    (hns : isNoiseMessage content image_data = false) :
    ((BossGroup.relay_message send now g content image_data src).ok = true ↔
      ∃ r ∈ (BossGroup.relay_message send now g content image_data src).results,
        r.success = true) := by
  unfold BossGroup.relay_message
  rw [if_neg (by simp [hns])]
  dsimp only
  by_cases hmode : (g.send_mode == "sync") = true
  · rw [if_pos hmode]
    by_cases hemp : ((BossGroup.get_enabled_webhooks g.webhooks true).isEmpty
        && (BossGroup.get_fixed_webhooks g.webhooks).isEmpty) = true
    · rw [if_pos hemp]
      simp
    · rw [if_neg hemp, finishRelay_ok, finishRelay_results, decide_eq_true_eq]
      exact List.countP_pos_iff
  · rw [if_neg hmode]
    cases hsel : (BossGroup.get_next_webhook_round_robin now g.webhooks g.current_index).1.1 with
    | none =>
      dsimp only
      by_cases hfe : (BossGroup.get_fixed_webhooks g.webhooks).isEmpty = true
      · rw [if_pos hfe]
        have hfix0 : BossGroup.get_fixed_webhooks g.webhooks = [] := List.isEmpty_iff.mp hfe
        simp only [hfix0, List.map_nil, List.nil_append]
        constructor
        · intro h
          simp at h
        · rintro ⟨r, hr, hs⟩
          rw [map_skipped_success _ r hr] at hs
          simp at hs
      · rw [if_neg hfe, finishRelay_ok, finishRelay_results, decide_eq_true_eq]
        exact List.countP_pos_iff
    | some w =>
      dsimp only
      rw [finishRelay_ok, finishRelay_results, decide_eq_true_eq]
      exact List.countP_pos_iff

/-- Claim C4 (amended): in round-robin mode with no covered eligible
webhook, the mode pass selects nothing; every eligible webhook is recorded
as skipped; the call reports success iff some (necessarily fixed) attempt
succeeded; and the cursor after the call is the old cursor reduced modulo
the eligible count — unchanged whenever the eligible set is empty or the
cursor was already in range, and in range (valid) for the next call. -/
theorem round_robin_no_coverage (send : WebhookItem → Bool) (now : LocalNow)
    (g : GroupState) (content : String) (image_data : Bool) (src : String)
    (hns : isNoiseMessage content image_data = false)
    (hmode : g.send_mode = "round_robin")
    (huncov : ∀ wh ∈ BossGroup.get_enabled_webhooks g.webhooks true,
      wh.is_in_schedule now = false) :
    ((BossGroup.get_next_webhook_round_robin now g.webhooks g.current_index).1.1 = none) ∧
    (∀ wh ∈ BossGroup.get_enabled_webhooks g.webhooks true,
      ({ name := wh.name, wtype := wh.webhook_type, success := false,
         is_fixed := false, skipped := true } : ResultEntry)
        ∈ (BossGroup.relay_message send now g content image_data src).results) ∧
    ((BossGroup.relay_message send now g content image_data src).ok = true ↔
      ∃ r ∈ (BossGroup.relay_message send now g content image_data src).results,
        r.success = true) ∧
    (∀ r ∈ (BossGroup.relay_message send now g content image_data src).results,
      r.success = true → r.is_fixed = true) ∧
    (BossGroup.get_enabled_webhooks g.webhooks true = [] →
      (BossGroup.relay_message send now g content image_data src).state.current_index
        = g.current_index) ∧
    (BossGroup.get_enabled_webhooks g.webhooks true ≠ [] →
      (BossGroup.relay_message send now g content image_data src).state.current_index
        = g.current_index % (BossGroup.get_enabled_webhooks g.webhooks true).length ∧
      (BossGroup.relay_message send now g content image_data src).state.current_index
        < (BossGroup.get_enabled_webhooks g.webhooks true).length) := by
  have hmodeF : (g.send_mode == "sync") = false := by rw [hmode]; decide
  have hseln : (BossGroup.get_next_webhook_round_robin now g.webhooks g.current_index).1.1
      = none := by
    by_cases hne : BossGroup.get_enabled_webhooks g.webhooks true = []
    · simp [BossGroup.get_next_webhook_round_robin, hne]
    · rw [get_next_none now g.webhooks g.current_index huncov hne]
  have hgn : BossGroup.get_next_webhook_round_robin now g.webhooks g.current_index
      = ((none,
          (BossGroup.get_next_webhook_round_robin now g.webhooks g.current_index).1.2),
          (BossGroup.get_next_webhook_round_robin now g.webhooks g.current_index).2) := by
    rw [← hseln]
  refine ⟨hseln, ?_, relay_ok_iff send now g content image_data src hns, ?_, ?_, ?_⟩
  · -- every eligible webhook is recorded as skipped
    intro wh hwh
    have hne : BossGroup.get_enabled_webhooks g.webhooks true ≠ [] := by
      intro h0
      rw [h0] at hwh
      exact absurd hwh (by simp)
    have hgnN := get_next_none now g.webhooks g.current_index huncov hne
    have hsk : wh ∈ (List.range (BossGroup.get_enabled_webhooks g.webhooks true).length).map
        (fun t => (BossGroup.get_enabled_webhooks g.webhooks true).getD
          ((g.current_index % (BossGroup.get_enabled_webhooks g.webhooks true).length + t)
            % (BossGroup.get_enabled_webhooks g.webhooks true).length) dummyWebhook) :=
      range_map_covers _ _ (List.length_pos.mpr hne) wh hwh
    unfold BossGroup.relay_message
    rw [if_neg (by simp [hns])]
    dsimp only
    rw [if_neg (by simp [hmodeF])]
    rw [hgnN]
    dsimp only
    by_cases hfe : (BossGroup.get_fixed_webhooks g.webhooks).isEmpty = true
    · rw [if_pos hfe]
      exact List.mem_append_right _ (List.mem_map.mpr ⟨wh, hsk, rfl⟩)
    · rw [if_neg hfe, finishRelay_results]
      exact List.mem_append_right _ (List.mem_map.mpr ⟨wh, hsk, rfl⟩)
  · -- every successful entry is a fixed one
    intro r hr hs
    rw [BossGroup.relay_message] at hr
    rw [if_neg (by simp [hns])] at hr
    dsimp only at hr
    rw [if_neg (by simp [hmodeF])] at hr
    rw [hgn] at hr
    dsimp only at hr
    by_cases hfe : (BossGroup.get_fixed_webhooks g.webhooks).isEmpty = true
    · rw [if_pos hfe] at hr
      cases List.mem_append.mp hr with
      | inl h => exact fixed_results_fixed send now g.webhooks r h
      | inr h =>
        rw [map_skipped_success _ r h] at hs
        exact absurd hs (by simp)
    · rw [if_neg hfe, finishRelay_results] at hr
      cases List.mem_append.mp hr with
      | inl h => exact fixed_results_fixed send now g.webhooks r h
      | inr h =>
        rw [map_skipped_success _ r h] at hs
        exact absurd hs (by simp)
  · -- empty eligible set: the cursor is untouched
    intro hE
    have hgn0 : BossGroup.get_next_webhook_round_robin now g.webhooks g.current_index
        = ((none, []), g.current_index) := by
      simp [BossGroup.get_next_webhook_round_robin, hE]
    unfold BossGroup.relay_message
    rw [if_neg (by simp [hns])]
    dsimp only
    rw [if_neg (by simp [hmodeF])]
    rw [hgn0]
    dsimp only
    by_cases hfe : (BossGroup.get_fixed_webhooks g.webhooks).isEmpty = true
    · rw [if_pos hfe]
    · rw [if_neg hfe, finishRelay_index]
  · -- non-empty eligible set: the cursor is normalized into range
    intro hne
    have hgnN := get_next_none now g.webhooks g.current_index huncov hne
    have hN : 0 < (BossGroup.get_enabled_webhooks g.webhooks true).length :=
      List.length_pos.mpr hne
    unfold BossGroup.relay_message
    rw [if_neg (by simp [hns])]
    dsimp only
    rw [if_neg (by simp [hmodeF])]
    rw [hgnN]
    dsimp only
    by_cases hfe : (BossGroup.get_fixed_webhooks g.webhooks).isEmpty = true
    · rw [if_pos hfe]
      exact ⟨rfl, Nat.mod_lt _ hN⟩
    · rw [if_neg hfe, finishRelay_index]
      exact ⟨rfl, Nat.mod_lt _ hN⟩

/-- Claim C4 counterexample: a round-robin group with one eligible,
uncovered webhook and a stored cursor of 5 (out of range, as a loaded
snapshot can produce) ends the call with cursor 0 — not its value before
the call, contradicting the claim that the cursor is never moved. -/
theorem round_robin_cursor_counterexample :
    rrStuckGroup.send_mode = "round_robin" ∧
    rrStuckGroup.current_index = 5 ∧
    (∀ wh ∈ BossGroup.get_enabled_webhooks rrStuckGroup.webhooks true,
      wh.is_in_schedule sampleNight = false) ∧
    isNoiseMessage "hello" false = false ∧
    (BossGroup.relay_message (fun _ => false) sampleNight rrStuckGroup "hello" false
      "9.9.9.9").state.current_index = 0 ∧
    (BossGroup.relay_message (fun _ => false) sampleNight rrStuckGroup "hello" false
      "9.9.9.9").state.current_index ≠ rrStuckGroup.current_index := by
  exact ⟨rfl, rfl, by decide, by decide, by decide, by decide⟩

/-- Witness for `round_robin_no_coverage` on the concrete stuck group. -/
theorem round_robin_no_coverage_witness :
    (BossGroup.get_next_webhook_round_robin sampleNight rrStuckGroup.webhooks
      rrStuckGroup.current_index).1.1 = none ∧
    (BossGroup.relay_message (fun _ => false) sampleNight rrStuckGroup "hi" false
        "8.8.8.8").state.current_index
      = rrStuckGroup.current_index
          % (BossGroup.get_enabled_webhooks rrStuckGroup.webhooks true).length := by
  have h := round_robin_no_coverage (fun _ => false) sampleNight rrStuckGroup "hi" false
    "8.8.8.8" (by decide) rfl (by decide)
  exact ⟨h.1, (h.2.2.2.2.2 (by decide)).1⟩
